import Mathlib

/-!
# Tollbit Go SDK: client operations, URL canonicalization and the token codec

A shallow embedding of `client.go` (package `tollbit`).

* Go `string` values are Lean `String`s, `[]byte` values are lists of `Byte`.
* A Go result pair `(v, err)` is a Lean pair `(v, err)` with `err : Error`;
  `none` is Go's `nil` error.
* The functions that `client.go` calls but does not define (`encoding/json`,
  `net/http`, and the package's own `Encrypt` / `Decrypt`) are the fields of
  `Env`; the HTTP transport is the `httpClient` field of `Client`.
* The requests handed to the transport are recorded in an explicit log that
  every network operation threads through.
-/

namespace Tollbit

/-! ## Go values -/

/-- One element of a Go `[]byte`. -/
abbrev Byte := Fin 256

/-- A Go `error`: `none` is `nil`, `some msg` is an error with message `msg`. -/
abbrev Error := Option String

/-- The UTF-8 bytes of a string: the Go conversion `[]byte(s)`. -/
def bytesOf (s : String) : List Byte :=
  (s.data.flatMap String.utf8EncodeChar).map (fun b => b.val)

/-! ## `strings.HasPrefix` and `strings.TrimPrefix`

Go compares bytes; the embedding compares code points. The two agree on
well-formed UTF-8, and every prefix used by `client.go` is ASCII. -/

/-- Go `strings.HasPrefix(s, pre)`. -/
def HasPrefix (s pre : String) : Bool :=
  pre.data.isPrefixOf s.data

/-- Go `strings.TrimPrefix(s, pre)`: `s` without the leading `pre`, or `s`
unchanged when it does not start with `pre`. -/
def TrimPrefix (s pre : String) : String :=
  if HasPrefix s pre then ⟨s.data.drop pre.data.length⟩ else s

/-- The prefix stripping of `client.go` lines 117-120 (`GetContentWithToken`)
and 155-158 (`GetRate`), which are the same expression:
`TrimPrefix(TrimPrefix(TrimPrefix(u, "https://"), "http://"), "www.")`. -/
def Canonicalize (u : String) : String :=
  TrimPrefix (TrimPrefix (TrimPrefix u "https://") "http://") "www."

/-! ## Data model (`client.go` lines 12-86) -/

/-- Go `type LicenseType string`. -/
abbrev LicenseType := String

/-- Go constant `OnDemandLicense`. -/
def OnDemandLicense : LicenseType := "ON_DEMAND_LICENSE"

/-- Go `tokenStruct`: the record that is serialized and encrypted into a token. -/
structure tokenStruct where
  OrgCuid : String
  Key : String
  Url : String
  UserAgent : String
  MaxPriceMicros : Int
  Currency : String
  LicenseType : Tollbit.LicenseType
deriving DecidableEq, Repr

/-- Go `TokenParams`. -/
structure TokenParams where
  Url : String
  MaxPriceMicros : Int
  Currency : String
  LicenseType : Tollbit.LicenseType
deriving DecidableEq, Repr

/-- Go `Content`. -/
structure Content where
  Header : String
  Main : String
  Footer : String
deriving DecidableEq, Repr

/-- Go `RateResponse`. -/
structure RateResponse where
  PriceMicros : Int
  Currency : String
  LicenseType : String
  LicensePath : String
  Error : String
deriving DecidableEq, Repr

/-- Go `ContentResponse`. -/
structure ContentResponse where
  Content : Tollbit.Content
  Metadata : String
  Rate : RateResponse
deriving DecidableEq, Repr

/-- The Go zero value `RateResponse{}`. -/
def RateResponse.zero : RateResponse :=
  { PriceMicros := 0, Currency := "", LicenseType := "", LicensePath := "", Error := "" }

/-- The Go zero value `ContentResponse{}`. -/
def ContentResponse.zero : ContentResponse :=
  { Content := { Header := "", Main := "", Footer := "" }, Metadata := "",
    Rate := RateResponse.zero }

/-! ## HTTP values -/

/-- The part of `http.Request` that `client.go` sets: method, URL and the
header entries in the order they were added. `net/http` stores header names in
canonical MIME case and compares them case-insensitively; the embedding keeps
the spelling of the source. -/
structure Request where
  Method : String
  URL : String
  Header : List (String × String)
deriving DecidableEq, Repr

/-- Go `req.Header.Add(key, value)`. -/
def Request.HeaderAdd (req : Request) (key value : String) : Request :=
  { req with Header := req.Header ++ [(key, value)] }

/-- A response body as a reader: the bytes it delivers and the error, if any,
that ends the read before a clean end of stream. -/
structure Body where
  data : List Byte
  err : Error
deriving DecidableEq, Repr

/-- The part of `http.Response` that `client.go` uses. -/
structure Response where
  Body : Tollbit.Body
deriving DecidableEq, Repr

/-- Go `io.ReadAll(r)`: the bytes read until the end of stream or the first
error, together with that error. -/
def ReadAll (r : Body) : List Byte × Error :=
  (r.data, r.err)

/-- Go `Client`. The `httpClient` field is the transport: it maps a request to
the result pair of `httpClient.Do`. -/
structure Client where
  secretKey : String
  organizationId : String
  userAgent : String
  httpClient : Request → Response × Error

/-- Go `Options`. -/
structure Options where
  HttpClient : Request → Response × Error

/-- Go `NewClient`; `defaultClient` stands for `http.DefaultClient`. -/
def NewClient (defaultClient : Request → Response × Error) (apiToken : String)
    (organizationId : String) (userAgent : String)
    (options : List (Options → Options)) : Client × Error :=
  let opts : Options := options.foldl (fun o fn => fn o) { HttpClient := defaultClient }
  ({ secretKey := apiToken, organizationId := organizationId, userAgent := userAgent,
     httpClient := opts.HttpClient }, none)

/-! ## The functions `client.go` calls but does not define -/

/-- The library functions used by `client.go`. `Encrypt` takes the random
bytes it draws as an explicit first argument. `NewRequestError method url` is
the error of `http.NewRequestWithContext` (invalid method, nil context, URL
that does not parse), `none` when the request can be built. -/
structure Env where
  MarshalToken : tokenStruct → List Byte × Error
  UnmarshalToken : List Byte → Except String tokenStruct
  UnmarshalContent : List Byte → Except String (List ContentResponse)
  UnmarshalRate : List Byte → Except String (List RateResponse)
  Encrypt : List Byte → List Byte → String → String × Error
  Decrypt : String → String → List Byte × Error
  NewRequestError : String → String → Error

/-- Go `http.NewRequestWithContext(ctx, method, url, nil)`: a request with the
given method and URL and no header, or the error of `Env.NewRequestError`. -/
def NewRequestWithContext (env : Env) (method url : String) : Request × Error :=
  match env.NewRequestError method url with
  | some err => ({ Method := "", URL := "", Header := [] }, some err)
  | none => ({ Method := method, URL := url, Header := [] }, none)

/-- Go `c.httpClient.Do(req)`: the transport answers and the request is
appended to the log of requests it has received. -/
def Do (c : Client) (req : Request) (log : List Request) :
    (Response × Error) × List Request :=
  (c.httpClient req, log ++ [req])

/-- The fixed bot user-agent header value of lines 128 and 165. -/
def botUserAgent (c : Client) : String :=
  "Mozilla/5.0 (compatible; " ++ c.userAgent ++ "; +https://tollbit.com/bot)"

/-! ## Operations (`client.go` lines 88-180) -/

/-- Go `(*Client).GenerateToken`. -/
def GenerateToken (env : Env) (c : Client) (rnd : List Byte) (params : TokenParams) :
    String × Error :=
  let token : tokenStruct :=
    { OrgCuid := c.organizationId, Key := c.secretKey, Url := params.Url,
      UserAgent := c.userAgent, MaxPriceMicros := params.MaxPriceMicros,
      Currency := params.Currency, LicenseType := params.LicenseType }
  match env.MarshalToken token with
  | (_, some err) => ("", some err)
  | (jsonToken, none) =>
    match env.Encrypt rnd jsonToken c.secretKey with
    | (_, some err) => ("", some err)
    | (encryptedToken, none) => (encryptedToken, none)

/-- Go `(*Client).GetContentWithToken`. The error of `Decrypt` (line 110) and
the error of `io.ReadAll` (line 134) are each overwritten by the next
assignment to `err` before anything reads them, so only the byte values of
those two calls are used. -/
def GetContentWithToken (env : Env) (c : Client) (token : String) (log : List Request) :
    (ContentResponse × Error) × List Request :=
  let decryptedToken := (env.Decrypt token c.secretKey).1
  match env.UnmarshalToken decryptedToken with
  | .error err => ((ContentResponse.zero, some err), log)
  | .ok t =>
    let tollbitUrl := "https://api.tollbit.com/dev/v1/content/" ++ Canonicalize t.Url
    match NewRequestWithContext env "GET" tollbitUrl with
    | (_, some err) => ((ContentResponse.zero, some err), log)
    | (req, none) =>
      let req := req.HeaderAdd "TollbitOrgCuid" t.OrgCuid
      let req := req.HeaderAdd "User-Agent" (botUserAgent c)
      let req := req.HeaderAdd "TollbitToken" token
      match Do c req log with
      | ((_, some err), log) => ((ContentResponse.zero, some err), log)
      | ((resp, none), log) =>
        let bodyBytes := (ReadAll resp.Body).1
        match env.UnmarshalContent bodyBytes with
        | .error err => ((ContentResponse.zero, some err), log)
        | .ok contentResponse =>
          if contentResponse.length == 0
              || (contentResponse.getD 0 ContentResponse.zero).Content.Main == "" then
            ((ContentResponse.zero, some "could not get content"), log)
          else
            ((contentResponse.getD 0 ContentResponse.zero, none), log)

/-- Go `(*Client).GetContent`. -/
def GetContent (env : Env) (c : Client) (rnd : List Byte) (params : TokenParams)
    (log : List Request) : (ContentResponse × Error) × List Request :=
  match GenerateToken env c rnd params with
  | (_, some err) => ((ContentResponse.zero, some err), log)
  | (token, none) => GetContentWithToken env c token log

/-- Go `(*Client).GetRate`. The error of `io.ReadAll` (line 170) is
overwritten by the next assignment to `err` before anything reads it. -/
def GetRate (env : Env) (c : Client) (targetUrl : String) (log : List Request) :
    (RateResponse × Error) × List Request :=
  let tollbitUrl := "https://api.tollbit.com/dev/v1/rate/" ++ Canonicalize targetUrl
  match NewRequestWithContext env "GET" tollbitUrl with
  | (_, some err) => ((RateResponse.zero, some err), log)
  | (req, none) =>
    let req := req.HeaderAdd "User-Agent" (botUserAgent c)
    match Do c req log with
    | ((_, some err), log) => ((RateResponse.zero, some err), log)
    | ((resp, none), log) =>
      let bodyBytes := (ReadAll resp.Body).1
      match env.UnmarshalRate bodyBytes with
      | .error err => ((RateResponse.zero, some err), log)
      | .ok rateResponse =>
        if rateResponse.length == 0 then
          ((RateResponse.zero, some "could not get rate"), log)
        else
          ((rateResponse.getD 0 RateResponse.zero, none), log)

/-- The request that lines 122-129 of `GetContentWithToken` build for a token
that decodes to `t`. -/
def contentRequest (c : Client) (t : tokenStruct) (token : String) : Request :=
  { Method := "GET",
    URL := "https://api.tollbit.com/dev/v1/content/" ++ Canonicalize t.Url,
    Header := [("TollbitOrgCuid", t.OrgCuid), ("User-Agent", botUserAgent c),
               ("TollbitToken", token)] }

/-- The request that lines 160-165 of `GetRate` build. -/
def rateRequest (c : Client) (targetUrl : String) : Request :=
  { Method := "GET",
    URL := "https://api.tollbit.com/dev/v1/rate/" ++ Canonicalize targetUrl,
    Header := [("User-Agent", botUserAgent c)] }

/-! ## Token codec

`Encrypt` and `Decrypt` are defined in a file of the package that is not part
of the sources at hand; only their test (`crypto_test.go`) and their callers
are. They are modelled here from section 4.1 of the specification. -/

/-- Modelled from the spec: the symmetric cipher behind the missing
`Encrypt` / `Decrypt`. The spec fixes no algorithm, only that a fixed-size key
is derived deterministically from the secret, that encryption may use a fresh
nonce, and that decryption may fail an integrity check. -/
structure Cipher where
  nonceSize : Nat
  deriveKey : String → List Byte
  encipher : List Byte → List Byte → List Byte → List Byte
  decipher : List Byte → List Byte → List Byte → Option (List Byte)

/-- Modelled from the spec: "Decode reverses the transform", at the level
of the cipher: deciphering what was enciphered under the same key and nonce
gives the plaintext back. -/
def Cipher.Sound (cph : Cipher) : Prop :=
  ∀ key nonce plaintext,
    cph.decipher key nonce (cph.encipher key nonce plaintext) = some plaintext

/-- The lower-case hexadecimal digit of a value below 16. -/
def hexDigit (n : Nat) : Char :=
  if n < 10 then Char.ofNat (48 + n) else Char.ofNat (87 + n)

/-- The value of a lower-case hexadecimal digit. -/
def hexValue (c : Char) : Option Nat :=
  if 48 ≤ c.toNat ∧ c.toNat ≤ 57 then some (c.toNat - 48)
  else if 97 ≤ c.toNat ∧ c.toNat ≤ 102 then some (c.toNat - 87)
  else none

/-- Two hexadecimal digits per byte, high digit first. -/
def hexEncode : List Byte → List Char
  | [] => []
  | b :: bs => hexDigit (b.val / 16) :: hexDigit (b.val % 16) :: hexEncode bs

/-- The inverse of `hexEncode`; `none` on an odd length or a non-digit. -/
def hexDecode : List Char → Option (List Byte)
  | [] => some []
  | [_] => none
  | h :: l :: cs =>
    match hexValue h, hexValue l, hexDecode cs with
    | some hv, some lv, some rest => some (Fin.ofNat (16 * hv + lv) :: rest)
    | _, _, _ => none

/-- Modelled from the spec: the missing `Encrypt(plaintext, secretKey)`.
"Encrypts it with a symmetric cipher keyed by a value derived from secret,
producing a token safe for inclusion in a text header or URL"; the token is
the hexadecimal text of the nonce followed by the ciphertext. The nonce is
the randomness the call draws. -/
def Encrypt (cph : Cipher) (nonce plaintext : List Byte) (secretKey : String) :
    String × Error :=
  if nonce.length ≠ cph.nonceSize then ("", some "could not read nonce")
  else (⟨hexEncode (nonce ++ cph.encipher (cph.deriveKey secretKey) nonce plaintext)⟩, none)

/-- Modelled from the spec: the missing `Decrypt(token, secretKey)`.
"Reverses the transform. Fails when the token is malformed (cannot be parsed
into cipher components)" or when "authentication/integrity check fails". On
failure the byte result is nil. -/
def Decrypt (cph : Cipher) (token secretKey : String) : List Byte × Error :=
  match hexDecode token.data with
  | none => ([], some "malformed token")
  | some raw =>
    if raw.length < cph.nonceSize then ([], some "malformed token")
    else
      match cph.decipher (cph.deriveKey secretKey) (raw.take cph.nonceSize)
          (raw.drop cph.nonceSize) with
      | none => ([], some "message authentication failed")
      | some plaintext => (plaintext, none)

/-! ## A concrete environment: the end-to-end scenario of the specification -/

/-- Byte `j` of the key stream of `streamCipher`. -/
def keystreamByte (key nonce : List Byte) (j : Nat) : Byte :=
  (key ++ nonce).getD (j % (key.length + nonce.length)) 0 + Fin.ofNat j

/-- Adds the key stream, from position `j` on, to the bytes. -/
def addStream (key nonce : List Byte) : Nat → List Byte → List Byte
  | _, [] => []
  | j, b :: bs => (b + keystreamByte key nonce j) :: addStream key nonce (j + 1) bs

/-- Subtracts the key stream, from position `j` on, from the bytes. -/
def subStream (key nonce : List Byte) : Nat → List Byte → List Byte
  | _, [] => []
  | j, b :: bs => (b - keystreamByte key nonce j) :: subStream key nonce (j + 1) bs

/-- A 32-byte key from a secret of any length. -/
def streamKey (secret : String) : List Byte :=
  (List.range 32).map fun i =>
    Fin.ofNat (secret.data.foldl (fun h ch => (31 * h + ch.toNat + i) % 256) i)

/-- A small additive stream cipher with a 12-byte nonce, used to instantiate
`Cipher`. -/
def streamCipher : Cipher :=
  { nonceSize := 12
    deriveKey := streamKey
    encipher := fun key nonce plaintext => addStream key nonce 0 plaintext
    decipher := fun key nonce ciphertext => some (subStream key nonce 0 ciphertext) }

/-- The record of the end-to-end scenario. -/
def scenarioRecord : tokenStruct :=
  { OrgCuid := "org-abc", Key := "secret123", Url := "https://www.site.com/page",
    UserAgent := "MyBot", MaxPriceMicros := 500, Currency := "USD",
    LicenseType := OnDemandLicense }

/-- The parameters of the end-to-end scenario. -/
def scenarioParams : TokenParams :=
  { Url := "https://www.site.com/page", MaxPriceMicros := 500, Currency := "USD",
    LicenseType := OnDemandLicense }

/-- The JSON text of `scenarioRecord`, as `json.Marshal` writes it. -/
def scenarioJSON : String :=
  "\x7b\"orgCuid\":\"org-abc\",\"key\":\"secret123\",\"url\":\"https://www.site.com/page\",\"userAgent\":\"MyBot\",\"maxPriceMicros\":500,\"currency\":\"USD\",\"licenseType\":\"ON_DEMAND_LICENSE\"\x7d"

/-- A content response whose `main` field is "hello". -/
def helloContent : ContentResponse :=
  { Content := { Header := "", Main := "hello", Footer := "" }, Metadata := "",
    Rate := RateResponse.zero }

/-- The JSON text of a one-element content array with `main` "hello". -/
def helloContentJSON : String :=
  "[\x7b\"content\":\x7b\"main\":\"hello\"\x7d\x7d]"

/-- The JSON text of a one-element content array with an empty `main`. -/
def emptyMainJSON : String :=
  "[\x7b\"content\":\x7b\"header\":\"\",\"main\":\"\",\"footer\":\"\"\x7d\x7d]"

/-- A rate response that carries a non-empty `error` field. -/
def errorRate : RateResponse :=
  { PriceMicros := 0, Currency := "", LicenseType := "", LicensePath := "",
    Error := "no rate" }

/-- The JSON text of a one-element rate array with a non-empty `error`. -/
def errorRateJSON : String :=
  "[\x7b\"error\":\"no rate\"\x7d]"

/-- The scenario environment: `encoding/json` restricted to the texts above
(every other input is rejected), the modelled codec over `streamCipher`, and
a request builder that accepts every URL. -/
def scenarioEnv : Env :=
  { MarshalToken := fun t =>
      if t = scenarioRecord then (bytesOf scenarioJSON, none)
      else ([], some "json: unsupported value")
    UnmarshalToken := fun b =>
      if b = bytesOf scenarioJSON then .ok scenarioRecord
      else if b = [] then .error "unexpected end of JSON input"
      else .error "invalid character"
    UnmarshalContent := fun b =>
      if b = bytesOf "[]" then .ok []
      else if b = bytesOf helloContentJSON then .ok [helloContent]
      else if b = bytesOf emptyMainJSON then .ok [ContentResponse.zero]
      else .error "invalid character"
    UnmarshalRate := fun b =>
      if b = bytesOf "[]" then .ok []
      else if b = bytesOf errorRateJSON then .ok [errorRate]
      else .error "invalid character"
    Encrypt := Encrypt streamCipher
    Decrypt := Decrypt streamCipher
    NewRequestError := fun _ _ => none }

/-- A transport that answers every request to the rate endpoint with the body
`rate` and every other request with the body `content`. -/
def cannedTransport (content rate : Body) : Request → Response × Error :=
  fun req =>
    if HasPrefix req.URL "https://api.tollbit.com/dev/v1/rate/" then ({ Body := rate }, none)
    else ({ Body := content }, none)

/-- The client of the end-to-end scenario, over a canned transport. -/
def scenarioClient (content rate : Body) : Client :=
  (NewClient (cannedTransport content rate) "secret123" "org-abc" "MyBot" []).1

/-- A body that is read to its end without error and holds no byte. -/
def emptyBody : Body := { data := [], err := none }

/-- The nonce drawn in the scenario. -/
def scenarioNonce : List Byte := [1, 2, 3, 4, 5, 6, 7, 8, 9, 10, 11, 12]

/-- The token of the end-to-end scenario. -/
def scenarioToken : String :=
  (GenerateToken scenarioEnv (scenarioClient emptyBody emptyBody) scenarioNonce
    scenarioParams).1

/-! ## Lemmas on prefix stripping -/

theorem HasPrefix_append (pre s : String) : HasPrefix (pre ++ s) pre = true := by
  simp [HasPrefix, List.isPrefixOf_iff_prefix]

theorem TrimPrefix_append (pre s : String) : TrimPrefix (pre ++ s) pre = s := by
  simp [TrimPrefix, HasPrefix_append]

theorem TrimPrefix_of_not {s pre : String} (h : HasPrefix s pre = false) :
    TrimPrefix s pre = s := by
  simp [TrimPrefix, h]

theorem TrimPrefix_length_le (s pre : String) :
    (TrimPrefix s pre).length ≤ s.length := by
  unfold TrimPrefix
  split
  · show (s.data.drop pre.data.length).length ≤ s.data.length
    rw [List.length_drop]; exact Nat.sub_le _ _
  · exact Nat.le_refl _

theorem TrimPrefix_length_lt {s pre : String} (h : HasPrefix s pre = true)
    (hp : 0 < pre.length) : (TrimPrefix s pre).length < s.length := by
  have hle : pre.data.length ≤ s.data.length :=
    (List.isPrefixOf_iff_prefix.mp h).length_le
  have hp2 : 0 < pre.data.length := hp
  show (TrimPrefix s pre).data.length < s.data.length
  simp only [TrimPrefix, h, if_true, List.length_drop]
  omega

/-- A string that starts with "www." does not start with "http://". -/
theorem www_not_http (s : String) : HasPrefix ("www." ++ s) "http://" = false := by
  simp [HasPrefix, List.isPrefixOf]

/-- A string that starts with "http://" does not start with "https://". -/
theorem http_not_https (s : String) : HasPrefix ("http://" ++ s) "https://" = false := by
  simp [HasPrefix, List.isPrefixOf]

/-- A string that starts with "https://" does not start with "http://". -/
theorem https_not_http (s : String) : HasPrefix ("https://" ++ s) "http://" = false := by
  simp [HasPrefix, List.isPrefixOf]

/-- A string that starts with "http://" does not start with "www.". -/
theorem http_not_www (s : String) : HasPrefix ("http://" ++ s) "www." = false := by
  simp [HasPrefix, List.isPrefixOf]

/-- A string that starts with "https://" does not start with "www.". -/
theorem https_not_www (s : String) : HasPrefix ("https://" ++ s) "www." = false := by
  simp [HasPrefix, List.isPrefixOf]

/-- Canonicalization never lengthens its input. -/
theorem Canonicalize_length_le (u : String) : (Canonicalize u).length ≤ u.length := by
  unfold Canonicalize
  have h1 := TrimPrefix_length_le u "https://"
  have h2 := TrimPrefix_length_le (TrimPrefix u "https://") "http://"
  have h3 := TrimPrefix_length_le (TrimPrefix (TrimPrefix u "https://") "http://") "www."
  omega

/-- A string with none of the three prefixes is left unchanged. -/
theorem Canonicalize_bare {s : String} (h1 : HasPrefix s "https://" = false)
    (h2 : HasPrefix s "http://" = false) (h3 : HasPrefix s "www." = false) :
    Canonicalize s = s := by
  unfold Canonicalize
  rw [TrimPrefix_of_not h1, TrimPrefix_of_not h2, TrimPrefix_of_not h3]

/-- The fixed points of canonicalization are exactly the strings that start
with none of the three prefixes. -/
theorem Canonicalize_eq_self_iff (s : String) :
    Canonicalize s = s ↔
      (HasPrefix s "https://" = false ∧ HasPrefix s "http://" = false
        ∧ HasPrefix s "www." = false) := by
  constructor
  · intro h
    have hlen : (Canonicalize s).length = s.length := by rw [h]
    have l2 := TrimPrefix_length_le (TrimPrefix s "https://") "http://"
    have l3 := TrimPrefix_length_le (TrimPrefix (TrimPrefix s "https://") "http://") "www."
    have l1 := TrimPrefix_length_le s "https://"
    have c1 : HasPrefix s "https://" = false := by
      by_contra hc
      have hc2 : HasPrefix s "https://" = true := by simpa using hc
      have := TrimPrefix_length_lt hc2 (by decide)
      unfold Canonicalize at hlen
      omega
    have e1 : TrimPrefix s "https://" = s := TrimPrefix_of_not c1
    rw [e1] at l2 l3
    have c2 : HasPrefix s "http://" = false := by
      by_contra hc
      have hc2 : HasPrefix s "http://" = true := by simpa using hc
      have := TrimPrefix_length_lt hc2 (by decide)
      unfold Canonicalize at hlen
      rw [e1] at hlen
      omega
    have e2 : TrimPrefix s "http://" = s := TrimPrefix_of_not c2
    rw [e2] at l3
    have c3 : HasPrefix s "www." = false := by
      by_contra hc
      have hc2 : HasPrefix s "www." = true := by simpa using hc
      have := TrimPrefix_length_lt hc2 (by decide)
      unfold Canonicalize at hlen
      rw [e1, e2] at hlen
      omega
    exact ⟨c1, c2, c3⟩
  · rintro ⟨h1, h2, h3⟩
    exact Canonicalize_bare h1 h2 h3

/-! ## URL canonicalization -/

/-- C5, as stated, fails: canonicalizing "www.www.a" gives "www.a", and
canonicalizing that again gives "a". -/
theorem Canonicalize_not_idempotent :
    Canonicalize (Canonicalize "www.www.a") ≠ Canonicalize "www.www.a" := by
  decide

/-- C5, amended: canonicalizing twice gives the same as canonicalizing once
exactly when the canonical form starts with none of "https://", "http://" and
"www.". -/
theorem Canonicalize_idempotent_iff (u : String) :
    Canonicalize (Canonicalize u) = Canonicalize u ↔
      (HasPrefix (Canonicalize u) "https://" = false
        ∧ HasPrefix (Canonicalize u) "http://" = false
        ∧ HasPrefix (Canonicalize u) "www." = false) :=
  Canonicalize_eq_self_iff (Canonicalize u)

/-- C6: canonicalizing "https://www." followed by `s` gives `s` (in particular
when `s` does not start with "www."), a string `b` that starts with none of
"https://", "http://" and "www." is left unchanged, and both
"https://www.example.com/x" and "example.com/x" canonicalize to
"example.com/x". -/
theorem Canonicalize_reaches_bare (s b : String)
    (_hs : HasPrefix s "www." = false)
    (h1 : HasPrefix b "https://" = false) (h2 : HasPrefix b "http://" = false)
    (h3 : HasPrefix b "www." = false) :
    Canonicalize ("https://www." ++ s) = s
      ∧ Canonicalize b = b
      ∧ Canonicalize "https://www.example.com/x" = "example.com/x"
      ∧ Canonicalize "example.com/x" = "example.com/x" := by
  refine ⟨?_, Canonicalize_bare h1 h2 h3, by decide, by decide⟩
  have e : "https://www." ++ s = "https://" ++ ("www." ++ s) := by
    rw [← String.append_assoc]; rfl
  unfold Canonicalize
  rw [e, TrimPrefix_append, TrimPrefix_of_not (www_not_http s), TrimPrefix_append]

/-- C6 at `s = b = "example.com/x"`. -/
theorem Canonicalize_reaches_bare_witness :
    Canonicalize ("https://www." ++ "example.com/x") = "example.com/x"
      ∧ Canonicalize "example.com/x" = "example.com/x"
      ∧ Canonicalize "https://www.example.com/x" = "example.com/x"
      ∧ Canonicalize "example.com/x" = "example.com/x" :=
  Canonicalize_reaches_bare "example.com/x" "example.com/x"
    (by decide) (by decide) (by decide) (by decide)

/-- C7, as stated, fails: from "https://http://a" both schemes are stripped,
the result is "a" and not "http://a". -/
theorem Canonicalize_strips_two_schemes :
    Canonicalize ("https://http://" ++ "a") ≠ "http://" ++ "a" := by
  decide

/-- C7, amended: one leading "https://" and then one leading "http://" are
stripped. From "https://http://" followed by `s` both schemes go and what is
left is `s` without a leading "www."; in the three other orders only the
outer scheme is stripped and the inner one is kept. -/
theorem Canonicalize_scheme_layers (s : String) :
    Canonicalize ("https://http://" ++ s) = TrimPrefix s "www."
      ∧ Canonicalize ("http://https://" ++ s) = "https://" ++ s
      ∧ Canonicalize ("https://https://" ++ s) = "https://" ++ s
      ∧ Canonicalize ("http://http://" ++ s) = "http://" ++ s := by
  have e1 : "https://http://" ++ s = "https://" ++ ("http://" ++ s) := by
    rw [← String.append_assoc]; rfl
  have e2 : "http://https://" ++ s = "http://" ++ ("https://" ++ s) := by
    rw [← String.append_assoc]; rfl
  have e3 : "https://https://" ++ s = "https://" ++ ("https://" ++ s) := by
    rw [← String.append_assoc]; rfl
  have e4 : "http://http://" ++ s = "http://" ++ ("http://" ++ s) := by
    rw [← String.append_assoc]; rfl
  unfold Canonicalize
  refine ⟨?_, ?_, ?_, ?_⟩
  · rw [e1, TrimPrefix_append, TrimPrefix_append]
  · rw [e2, TrimPrefix_of_not (http_not_https _), TrimPrefix_append,
      TrimPrefix_of_not (https_not_www s)]
  · rw [e3, TrimPrefix_append, TrimPrefix_of_not (https_not_http s),
      TrimPrefix_of_not (https_not_www s)]
  · rw [e4, TrimPrefix_of_not (http_not_https _), TrimPrefix_append,
      TrimPrefix_of_not (http_not_www s)]

/-! ## Token codec -/

theorem hexValue_hexDigit (n : Nat) (h : n < 16) : hexValue (hexDigit n) = some n := by
  interval_cases n <;> decide

theorem hexDecode_hexEncode (bs : List Byte) : hexDecode (hexEncode bs) = some bs := by
  induction bs with
  | nil => rfl
  | cons b bs ih =>
    have h1 : b.val / 16 < 16 := by omega
    have h2 : b.val % 16 < 16 := by omega
    simp only [hexEncode, hexDecode, hexValue_hexDigit _ h1, hexValue_hexDigit _ h2, ih]
    congr 2
    apply Fin.ext
    simp [Fin.ofNat]
    omega

/-- Decrypting the token that `Encrypt` returned, under the same secret,
gives the plaintext back. -/
theorem Decrypt_of_Encrypt (cph : Cipher) (hs : cph.Sound) (nonce plaintext : List Byte)
    (secretKey token : String) (h : Encrypt cph nonce plaintext secretKey = (token, none)) :
    Decrypt cph token secretKey = (plaintext, none) := by
  unfold Encrypt at h
  by_cases hn : nonce.length = cph.nonceSize
  · simp only [hn, ne_eq, not_true_eq_false, if_false, Prod.mk.injEq, and_true] at h
    have hsound := hs (cph.deriveKey secretKey) nonce plaintext
    subst h
    simp only [Decrypt, hexDecode_hexEncode]
    rw [← hn]
    simp [hsound]
  · simp [hn] at h

/-- With a nonce of the right size, `Encrypt` returns a token and no error. -/
theorem Encrypt_succeeds (cph : Cipher) (nonce plaintext : List Byte) (secretKey : String)
    (hn : nonce.length = cph.nonceSize) :
    ∃ token, Encrypt cph nonce plaintext secretKey = (token, none) := by
  simp [Encrypt, hn]

theorem subStream_addStream (key nonce : List Byte) (j : Nat) (bs : List Byte) :
    subStream key nonce j (addStream key nonce j bs) = bs := by
  induction bs generalizing j with
  | nil => rfl
  | cons b bs ih => simp [addStream, subStream, ih]

theorem streamCipher_sound : streamCipher.Sound := by
  intro key nonce plaintext
  simp [streamCipher, subStream_addStream]

/-- In the scenario environment decoding inverts encoding of the token record. -/
theorem scenarioEnv_json_inverse (r : tokenStruct) (b : List Byte)
    (h : scenarioEnv.MarshalToken r = (b, none)) : scenarioEnv.UnmarshalToken b = .ok r := by
  simp only [scenarioEnv] at h ⊢
  by_cases hr : r = scenarioRecord
  · simp only [hr, if_true, Prod.mk.injEq, and_true] at h
    simp [← h, hr]
  · simp [hr] at h

/-- In the scenario environment decryption inverts encryption. -/
theorem scenarioEnv_decrypt_inverse (rnd b : List Byte) (k t : String)
    (h : scenarioEnv.Encrypt rnd b k = (t, none)) : scenarioEnv.Decrypt t k = (b, none) :=
  Decrypt_of_Encrypt streamCipher streamCipher_sound rnd b k t h

/-- The scenario token is what `GenerateToken` returns in the scenario. -/
theorem scenario_GenerateToken (content rate : Body) :
    GenerateToken scenarioEnv (scenarioClient content rate) scenarioNonce scenarioParams
      = (scenarioToken, none) := by
  rfl

/-- The scenario token decrypts and decodes to the scenario record. -/
theorem scenario_token_decodes :
    scenarioEnv.Decrypt scenarioToken "secret123" = (bytesOf scenarioJSON, none)
      ∧ scenarioEnv.UnmarshalToken (bytesOf scenarioJSON) = .ok scenarioRecord := by
  have hgen := scenario_GenerateToken emptyBody emptyBody
  have hm : scenarioEnv.MarshalToken scenarioRecord = (bytesOf scenarioJSON, none) := by
    simp [scenarioEnv]
  have he : scenarioEnv.Encrypt scenarioNonce (bytesOf scenarioJSON) "secret123"
      = (scenarioToken, none) := hgen
  exact ⟨scenarioEnv_decrypt_inverse scenarioNonce _ _ _ he,
    scenarioEnv_json_inverse _ _ hm⟩

/-- C1: for a sound cipher, a nonce of the cipher's size, every byte string
`p` and every non-empty secret `k`, `Encrypt` succeeds with some token, and
`Decrypt` of that token under `k` succeeds and returns exactly `p`. -/
theorem Encrypt_Decrypt_roundtrip (cph : Cipher) (hs : cph.Sound) (nonce p : List Byte)
    (k : String) (hn : nonce.length = cph.nonceSize) (_hk : k ≠ "") :
    ∃ t, Encrypt cph nonce p k = (t, none) ∧ Decrypt cph t k = (p, none) := by
  obtain ⟨t, ht⟩ := Encrypt_succeeds cph nonce p k hn
  exact ⟨t, ht, Decrypt_of_Encrypt cph hs nonce p k t ht⟩

/-- C1 at the input of `TestEncryption`: plaintext "hello world" and the
64-digit secret of the test. -/
theorem Encrypt_Decrypt_roundtrip_witness :
    ∃ t, Encrypt streamCipher scenarioNonce (bytesOf "hello world")
          "64280b7c9897a66cd1062596518fdf2992361f6477300562dc41d6d108359de2" = (t, none)
      ∧ Decrypt streamCipher t
          "64280b7c9897a66cd1062596518fdf2992361f6477300562dc41d6d108359de2"
          = (bytesOf "hello world", none) :=
  Encrypt_Decrypt_roundtrip streamCipher streamCipher_sound scenarioNonce
    (bytesOf "hello world")
    "64280b7c9897a66cd1062596518fdf2992361f6477300562dc41d6d108359de2" rfl (by decide)

/-! ## Token generation -/

/-- C2: `GenerateToken` returns a token exactly when serializing the record
built from the client identity and the parameters, and encrypting that
serialization under the client secret, both succeed, and the token is that
encryption. When decryption inverts encryption under the secret and JSON
decoding inverts JSON encoding, decoding the returned token recovers the
record, in particular its `Url` and `OrgCuid`. -/
theorem GenerateToken_encrypts_record (env : Env) (c : Client) (rnd : List Byte)
    (p : TokenParams) (tok : String)
    (hDec : ∀ b t, env.Encrypt rnd b c.secretKey = (t, none) →
      env.Decrypt t c.secretKey = (b, none))
    (hJson : ∀ r b, env.MarshalToken r = (b, none) → env.UnmarshalToken b = .ok r) :
    (GenerateToken env c rnd p = (tok, none) ↔
      ∃ j, env.MarshalToken
            { OrgCuid := c.organizationId, Key := c.secretKey, Url := p.Url,
              UserAgent := c.userAgent, MaxPriceMicros := p.MaxPriceMicros,
              Currency := p.Currency, LicenseType := p.LicenseType } = (j, none)
          ∧ env.Encrypt rnd j c.secretKey = (tok, none))
    ∧ (GenerateToken env c rnd p = (tok, none) →
      ∃ j t, env.Decrypt tok c.secretKey = (j, none) ∧ env.UnmarshalToken j = .ok t
        ∧ t = { OrgCuid := c.organizationId, Key := c.secretKey, Url := p.Url,
                UserAgent := c.userAgent, MaxPriceMicros := p.MaxPriceMicros,
                Currency := p.Currency, LicenseType := p.LicenseType }
        ∧ t.Url = p.Url ∧ t.OrgCuid = c.organizationId) := by
  have key : GenerateToken env c rnd p = (tok, none) ↔
      ∃ j, env.MarshalToken
            { OrgCuid := c.organizationId, Key := c.secretKey, Url := p.Url,
              UserAgent := c.userAgent, MaxPriceMicros := p.MaxPriceMicros,
              Currency := p.Currency, LicenseType := p.LicenseType } = (j, none)
          ∧ env.Encrypt rnd j c.secretKey = (tok, none) := by
    unfold GenerateToken
    rcases hm : env.MarshalToken _ with ⟨j, _ | e⟩
    · rcases he : env.Encrypt rnd j c.secretKey with ⟨t, _ | e2⟩
      · simp [hm, he]
      · simp [hm, he]
    · simp [hm]
  refine ⟨key, fun h => ?_⟩
  obtain ⟨j, hm, he⟩ := key.mp h
  exact ⟨j, _, hDec j tok he, hJson _ j hm, rfl, rfl, rfl⟩

/-- C2 in the end-to-end scenario: organization "org-abc", URL
"https://www.site.com/page", price ceiling 500, currency "USD". -/
theorem GenerateToken_encrypts_record_witness :
    ∃ j t, scenarioEnv.Decrypt scenarioToken "secret123" = (j, none)
      ∧ scenarioEnv.UnmarshalToken j = .ok t
      ∧ t = scenarioRecord
      ∧ t.Url = "https://www.site.com/page" ∧ t.OrgCuid = "org-abc" :=
  (GenerateToken_encrypts_record scenarioEnv (scenarioClient emptyBody emptyBody)
    scenarioNonce scenarioParams scenarioToken
    (fun b t h => scenarioEnv_decrypt_inverse scenarioNonce b _ t h)
    (fun r b h => scenarioEnv_json_inverse r b h)).2
    (scenario_GenerateToken emptyBody emptyBody)

/-! ## Content and rate operations -/

/-- Once the token decodes to `t` and the request can be built, the log grows
by exactly the content request, whatever the transport answers. -/
theorem GetContentWithToken_log (env : Env) (c : Client) (token : String)
    (log : List Request) (t : tokenStruct)
    (htok : env.UnmarshalToken (env.Decrypt token c.secretKey).1 = .ok t)
    (hreq : env.NewRequestError "GET" (contentRequest c t token).URL = none) :
    (GetContentWithToken env c token log).2 = log ++ [contentRequest c t token] := by
  have hreq2 : env.NewRequestError "GET"
      ("https://api.tollbit.com/dev/v1/content/" ++ Canonicalize t.Url) = none := hreq
  simp only [GetContentWithToken, htok, NewRequestWithContext, hreq2, Do, Request.HeaderAdd,
    List.nil_append, List.cons_append]
  rcases hd : c.httpClient _ with ⟨resp, _ | e⟩
  · dsimp only
    rcases hb : env.UnmarshalContent (ReadAll resp.Body).1 with e2 | r
    · rfl
    · dsimp only
      split <;> rfl
  · rfl

/-- When the request cannot be built, nothing is sent and the builder error
is returned. -/
theorem GetContentWithToken_no_request (env : Env) (c : Client) (token : String)
    (log : List Request) (t : tokenStruct) (e : String)
    (htok : env.UnmarshalToken (env.Decrypt token c.secretKey).1 = .ok t)
    (hreq : env.NewRequestError "GET" (contentRequest c t token).URL = some e) :
    GetContentWithToken env c token log = ((ContentResponse.zero, some e), log) := by
  have hreq2 : env.NewRequestError "GET"
      ("https://api.tollbit.com/dev/v1/content/" ++ Canonicalize t.Url) = some e := hreq
  simp only [GetContentWithToken, htok, NewRequestWithContext, hreq2]

/-- The result of `GetContentWithToken` once the transport has answered with
`resp` and no error: it depends on the bytes of the body only. -/
theorem GetContentWithToken_body (env : Env) (c : Client) (token : String)
    (log : List Request) (t : tokenStruct) (resp : Response)
    (htok : env.UnmarshalToken (env.Decrypt token c.secretKey).1 = .ok t)
    (hreq : env.NewRequestError "GET" (contentRequest c t token).URL = none)
    (hdo : c.httpClient (contentRequest c t token) = (resp, none)) :
    (GetContentWithToken env c token log).1 =
      match env.UnmarshalContent resp.Body.data with
      | .error err => (ContentResponse.zero, some err)
      | .ok [] => (ContentResponse.zero, some "could not get content")
      | .ok (x :: _) =>
        if x.Content.Main = "" then (ContentResponse.zero, some "could not get content")
        else (x, none) := by
  have hreq2 : env.NewRequestError "GET"
      ("https://api.tollbit.com/dev/v1/content/" ++ Canonicalize t.Url) = none := hreq
  have hdo2 : c.httpClient
      { Method := "GET",
        URL := "https://api.tollbit.com/dev/v1/content/" ++ Canonicalize t.Url,
        Header := [("TollbitOrgCuid", t.OrgCuid), ("User-Agent", botUserAgent c),
                   ("TollbitToken", token)] } = (resp, none) := hdo
  simp only [GetContentWithToken, htok, NewRequestWithContext, hreq2, Do, Request.HeaderAdd,
    List.nil_append, List.cons_append, hdo2, ReadAll]
  rcases hb : env.UnmarshalContent resp.Body.data with e2 | r
  · rfl
  · cases r with
    | nil => rfl
    | cons x xs =>
      by_cases hx : x.Content.Main = "" <;> simp [hx]

/-- The result of `GetRate` once the transport has answered with `resp` and no
error: it depends on the bytes of the body only. -/
theorem GetRate_body (env : Env) (c : Client) (targetUrl : String)
    (log : List Request) (resp : Response)
    (hreq : env.NewRequestError "GET" (rateRequest c targetUrl).URL = none)
    (hdo : c.httpClient (rateRequest c targetUrl) = (resp, none)) :
    (GetRate env c targetUrl log).1 =
      match env.UnmarshalRate resp.Body.data with
      | .error err => (RateResponse.zero, some err)
      | .ok [] => (RateResponse.zero, some "could not get rate")
      | .ok (x :: _) => (x, none) := by
  have hreq2 : env.NewRequestError "GET"
      ("https://api.tollbit.com/dev/v1/rate/" ++ Canonicalize targetUrl) = none := hreq
  have hdo2 : c.httpClient
      { Method := "GET",
        URL := "https://api.tollbit.com/dev/v1/rate/" ++ Canonicalize targetUrl,
        Header := [("User-Agent", botUserAgent c)] } = (resp, none) := hdo
  simp only [GetRate, NewRequestWithContext, hreq2, Do, Request.HeaderAdd,
    List.nil_append, hdo2, ReadAll]
  rcases hb : env.UnmarshalRate resp.Body.data with e2 | r
  · rfl
  · cases r with
    | nil => rfl
    | cons x xs => simp

/-- In the scenario the token decodes to the scenario record, whatever the
transport of the client. -/
theorem scenario_htok (content rate : Body) :
    scenarioEnv.UnmarshalToken
      (scenarioEnv.Decrypt scenarioToken (scenarioClient content rate).secretKey).1
      = .ok scenarioRecord := by
  show scenarioEnv.UnmarshalToken (scenarioEnv.Decrypt scenarioToken "secret123").1 = _
  rw [scenario_token_decodes.1]
  exact scenario_token_decodes.2

/-- The canned transport answers the content request with the content body. -/
theorem scenario_content_do (content rate : Body) (token : String) :
    (scenarioClient content rate).httpClient
      (contentRequest (scenarioClient content rate) scenarioRecord token)
      = ({ Body := content }, none) := by
  rfl

/-- The canned transport answers the rate request with the rate body. -/
theorem scenario_rate_do (content rate : Body) :
    (scenarioClient content rate).httpClient
      (rateRequest (scenarioClient content rate) "https://www.site.com/page")
      = ({ Body := rate }, none) := by
  rfl

/-- C3: when the response body decodes to a list `r` of content responses,
`GetContentWithToken` fails with "could not get content" and the zero
`ContentResponse` if `r` is empty or the `Content.Main` of its first element
is empty, and otherwise returns the first element unchanged with no error. -/
theorem GetContentWithToken_parses_content (env : Env) (c : Client) (token : String)
    (log : List Request) (t : tokenStruct) (resp : Response) (r : List ContentResponse)
    (htok : env.UnmarshalToken (env.Decrypt token c.secretKey).1 = .ok t)
    (hreq : env.NewRequestError "GET" (contentRequest c t token).URL = none)
    (hdo : c.httpClient (contentRequest c t token) = (resp, none))
    (hbody : env.UnmarshalContent resp.Body.data = .ok r) :
    (r = [] → (GetContentWithToken env c token log).1
        = (ContentResponse.zero, some "could not get content"))
    ∧ (∀ x xs, r = x :: xs → x.Content.Main = "" →
        (GetContentWithToken env c token log).1
          = (ContentResponse.zero, some "could not get content"))
    ∧ (∀ x xs, r = x :: xs → x.Content.Main ≠ "" →
        (GetContentWithToken env c token log).1 = (x, none)) := by
  rw [GetContentWithToken_body env c token log t resp htok hreq hdo, hbody]
  refine ⟨?_, ?_, ?_⟩
  · intro h; subst h; rfl
  · intro x xs h hx; subst h; simp [hx]
  · intro x xs h hx; subst h; simp [hx]

/-- C3 in the scenario: the body "[]" fails, a first element with an empty
`main` fails, and a first element with `main` "hello" is returned. -/
theorem GetContentWithToken_parses_content_witness :
    (GetContentWithToken scenarioEnv
        (scenarioClient { data := bytesOf "[]", err := none } emptyBody)
        scenarioToken []).1 = (ContentResponse.zero, some "could not get content")
    ∧ (GetContentWithToken scenarioEnv
        (scenarioClient { data := bytesOf emptyMainJSON, err := none } emptyBody)
        scenarioToken []).1 = (ContentResponse.zero, some "could not get content")
    ∧ (GetContentWithToken scenarioEnv
        (scenarioClient { data := bytesOf helloContentJSON, err := none } emptyBody)
        scenarioToken []).1 = (helloContent, none)
    ∧ helloContent.Content.Main = "hello" :=
  ⟨(GetContentWithToken_parses_content scenarioEnv _ scenarioToken [] scenarioRecord
      { Body := { data := bytesOf "[]", err := none } } []
      (scenario_htok _ _) rfl (scenario_content_do _ _ _) rfl).1 rfl,
   (GetContentWithToken_parses_content scenarioEnv _ scenarioToken [] scenarioRecord
      { Body := { data := bytesOf emptyMainJSON, err := none } } [ContentResponse.zero]
      (scenario_htok _ _) rfl (scenario_content_do _ _ _) rfl).2.1 _ _ rfl rfl,
   (GetContentWithToken_parses_content scenarioEnv _ scenarioToken [] scenarioRecord
      { Body := { data := bytesOf helloContentJSON, err := none } } [helloContent]
      (scenario_htok _ _) rfl (scenario_content_do _ _ _) rfl).2.2 _ _ rfl (by decide),
   rfl⟩

/-- C4: when the response body decodes to a list `r` of rate responses,
`GetRate` fails with "could not get rate" and the zero `RateResponse` if and
only if `r` is empty, and otherwise returns the first element verbatim with no
error, whatever its fields and however many elements follow. -/
theorem GetRate_parses_rate (env : Env) (c : Client) (targetUrl : String)
    (log : List Request) (resp : Response) (r : List RateResponse)
    (hreq : env.NewRequestError "GET" (rateRequest c targetUrl).URL = none)
    (hdo : c.httpClient (rateRequest c targetUrl) = (resp, none))
    (hbody : env.UnmarshalRate resp.Body.data = .ok r) :
    ((GetRate env c targetUrl log).1 = (RateResponse.zero, some "could not get rate")
        ↔ r = [])
    ∧ (∀ x xs, r = x :: xs → (GetRate env c targetUrl log).1 = (x, none)) := by
  rw [GetRate_body env c targetUrl log resp hreq hdo, hbody]
  cases r with
  | nil => simp
  | cons y ys => simp

/-- C4 in the scenario: the body "[]" fails, and a one-element array whose
element has a non-empty `error` field is returned verbatim. -/
theorem GetRate_parses_rate_witness :
    (GetRate scenarioEnv (scenarioClient emptyBody { data := bytesOf "[]", err := none })
        "https://www.site.com/page" []).1 = (RateResponse.zero, some "could not get rate")
    ∧ (GetRate scenarioEnv
        (scenarioClient emptyBody { data := bytesOf errorRateJSON, err := none })
        "https://www.site.com/page" []).1 = (errorRate, none) :=
  ⟨(GetRate_parses_rate scenarioEnv _ "https://www.site.com/page" []
      { Body := { data := bytesOf "[]", err := none } } []
      rfl (scenario_rate_do _ _) rfl).1.mpr rfl,
   (GetRate_parses_rate scenarioEnv _ "https://www.site.com/page" []
      { Body := { data := bytesOf errorRateJSON, err := none } } [errorRate]
      rfl (scenario_rate_do _ _) rfl).2 _ _ rfl⟩

/-- C9: for a token that decrypts and decodes to a record `t`, whenever the
request can be built the one request `GetContentWithToken` hands to the
transport is a GET to the content endpoint followed by the canonicalized
`t.Url`, carrying exactly the three headers `TollbitOrgCuid` (the `OrgCuid`
of the token), `User-Agent` (the fixed bot string around the client
user agent) and `TollbitToken` (the token as passed in); when the request
cannot be built, nothing is handed to the transport. -/
theorem GetContentWithToken_request_shape (env : Env) (c : Client) (token : String)
    (log : List Request) (b : List Byte) (t : tokenStruct)
    (hdec : env.Decrypt token c.secretKey = (b, none))
    (hjson : env.UnmarshalToken b = .ok t) :
    (env.NewRequestError "GET"
        ("https://api.tollbit.com/dev/v1/content/" ++ Canonicalize t.Url) = none →
      (GetContentWithToken env c token log).2 = log ++
        [{ Method := "GET",
           URL := "https://api.tollbit.com/dev/v1/content/" ++ Canonicalize t.Url,
           Header :=
             [("TollbitOrgCuid", t.OrgCuid),
              ("User-Agent",
                "Mozilla/5.0 (compatible; " ++ c.userAgent ++ "; +https://tollbit.com/bot)"),
              ("TollbitToken", token)] }])
    ∧ (∀ e, env.NewRequestError "GET"
        ("https://api.tollbit.com/dev/v1/content/" ++ Canonicalize t.Url) = some e →
      GetContentWithToken env c token log = ((ContentResponse.zero, some e), log)) := by
  have htok : env.UnmarshalToken (env.Decrypt token c.secretKey).1 = .ok t := by
    rw [hdec]; exact hjson
  exact ⟨fun h => GetContentWithToken_log env c token log t htok h,
    fun e h => GetContentWithToken_no_request env c token log t e htok h⟩

/-- C9 in the scenario: the request for the scenario token. -/
theorem GetContentWithToken_request_shape_witness :
    (GetContentWithToken scenarioEnv (scenarioClient emptyBody emptyBody) scenarioToken []).2
      = [{ Method := "GET",
           URL := "https://api.tollbit.com/dev/v1/content/site.com/page",
           Header :=
             [("TollbitOrgCuid", "org-abc"),
              ("User-Agent", "Mozilla/5.0 (compatible; MyBot; +https://tollbit.com/bot)"),
              ("TollbitToken", scenarioToken)] }] :=
  (GetContentWithToken_request_shape scenarioEnv (scenarioClient emptyBody emptyBody)
    scenarioToken [] (bytesOf scenarioJSON) scenarioRecord
    scenario_token_decodes.1 scenario_token_decodes.2).1 rfl

/-- C8, what the code does: when `Decrypt` returns an error `e` together with
bytes `b`, the error is not looked at. If `b` does not decode, the error
returned is the one of the JSON decoder; if `b` decodes and the request can be
built, the request is sent. -/
theorem GetContentWithToken_drops_decrypt_error (env : Env) (c : Client) (token : String)
    (log : List Request) (b : List Byte) (e : String)
    (hdec : env.Decrypt token c.secretKey = (b, some e)) :
    (∀ e2, env.UnmarshalToken b = .error e2 →
      GetContentWithToken env c token log = ((ContentResponse.zero, some e2), log))
    ∧ (∀ t, env.UnmarshalToken b = .ok t →
      env.NewRequestError "GET" (contentRequest c t token).URL = none →
      (GetContentWithToken env c token log).2 = log ++ [contentRequest c t token]) := by
  refine ⟨fun e2 h => ?_, fun t h hreq => ?_⟩
  · simp only [GetContentWithToken, hdec, h]
  · exact GetContentWithToken_log env c token log t (by rw [hdec]; exact h) hreq

/-- C8 in the scenario: for the token "not-a-token" `Decrypt` fails with
"malformed token", and `GetContentWithToken` returns the error of the JSON
decoder on the nil bytes instead. -/
theorem GetContentWithToken_drops_decrypt_error_witness :
    scenarioEnv.Decrypt "not-a-token" "secret123" = ([], some "malformed token")
    ∧ GetContentWithToken scenarioEnv (scenarioClient emptyBody emptyBody) "not-a-token" []
        = ((ContentResponse.zero, some "unexpected end of JSON input"), []) :=
  ⟨by decide,
   (GetContentWithToken_drops_decrypt_error scenarioEnv (scenarioClient emptyBody emptyBody)
      "not-a-token" [] [] "malformed token" (by decide)).1
      "unexpected end of JSON input" rfl⟩

/-- C10, what the code does: when the body read ends in an error after
delivering bytes that decode to a non-empty list, `GetContentWithToken` (for a
first element with a non-empty `main`) and `GetRate` return the first element
with no error. -/
theorem body_read_error_dropped (env : Env) (c : Client) (token targetUrl : String)
    (log : List Request) (t : tokenStruct) (resp1 resp2 : Response) (e1 e2 : String)
    (x : ContentResponse) (xs : List ContentResponse)
    (y : RateResponse) (ys : List RateResponse)
    (htok : env.UnmarshalToken (env.Decrypt token c.secretKey).1 = .ok t)
    (hreq1 : env.NewRequestError "GET" (contentRequest c t token).URL = none)
    (hdo1 : c.httpClient (contentRequest c t token) = (resp1, none))
    (_herr1 : (ReadAll resp1.Body).2 = some e1)
    (hbody1 : env.UnmarshalContent (ReadAll resp1.Body).1 = .ok (x :: xs))
    (hmain : x.Content.Main ≠ "")
    (hreq2 : env.NewRequestError "GET" (rateRequest c targetUrl).URL = none)
    (hdo2 : c.httpClient (rateRequest c targetUrl) = (resp2, none))
    (_herr2 : (ReadAll resp2.Body).2 = some e2)
    (hbody2 : env.UnmarshalRate (ReadAll resp2.Body).1 = .ok (y :: ys)) :
    (GetContentWithToken env c token log).1 = (x, none)
    ∧ (GetRate env c targetUrl log).1 = (y, none) := by
  have hb1 : env.UnmarshalContent resp1.Body.data = .ok (x :: xs) := hbody1
  have hb2 : env.UnmarshalRate resp2.Body.data = .ok (y :: ys) := hbody2
  constructor
  · rw [GetContentWithToken_body env c token log t resp1 htok hreq1 hdo1, hb1]
    simp [hmain]
  · rw [GetRate_body env c targetUrl log resp2 hreq2 hdo2, hb2]

/-- C10 in the scenario: both body reads end in "unexpected EOF" and both
operations return a result with no error. -/
theorem body_read_error_dropped_witness :
    (GetContentWithToken scenarioEnv
        (scenarioClient { data := bytesOf helloContentJSON, err := some "unexpected EOF" }
          { data := bytesOf errorRateJSON, err := some "unexpected EOF" })
        scenarioToken []).1 = (helloContent, none)
    ∧ (GetRate scenarioEnv
        (scenarioClient { data := bytesOf helloContentJSON, err := some "unexpected EOF" }
          { data := bytesOf errorRateJSON, err := some "unexpected EOF" })
        "https://www.site.com/page" []).1 = (errorRate, none) :=
  body_read_error_dropped scenarioEnv _ scenarioToken "https://www.site.com/page" []
    scenarioRecord
    { Body := { data := bytesOf helloContentJSON, err := some "unexpected EOF" } }
    { Body := { data := bytesOf errorRateJSON, err := some "unexpected EOF" } }
    "unexpected EOF" "unexpected EOF" helloContent [] errorRate []
    (scenario_htok _ _) rfl (scenario_content_do _ _ _) rfl rfl (by decide)
    rfl (scenario_rate_do _ _) rfl rfl

end Tollbit
